import Mathlib

/-!
Verification of the event-recipe REST backend (phinshen/event-recipe-API).

The repository is a set of near-duplicate Express/Postgres iterations.  The
development below shallowly embeds the data-transformation core of the final
`server.js` iteration (the recipe record reconstructor used by `GET /events`,
the `POST /events/:id/recipes` handler, the `DELETE /events/:id` handler) and
the catch handlers of the older iterations (`part_000`..`part_002`), and proves
or refutes the specification's claims about them.

JavaScript dynamic values are modelled by `JsValue`; SQL rows by structures
with `Option` fields for nullable columns; thrown exceptions by `Except`.
-/

/-- A JavaScript runtime value, as needed by the recipe pipeline: `undefined`
models `undefined` (e.g. a missing object property), the rest mirror the JSON
value grammar.  Numbers are modelled as integers: the API's payloads only ever
carry strings and nulls in the fields the code reads, and the claims never
exercise fractional numbers. -/
inductive JsValue where
  | undefined
  | null
  | bool (b : Bool)
  | num (n : Int)
  | str (s : String)
  | arr (elems : List JsValue)
  | obj (fields : List (String × JsValue))

/-- JavaScript truthiness of a value (`undefined`, `null`, `false`, `0` and
`""` are falsy; every array and object is truthy). -/
def JsValue.truthy : JsValue → Bool
  | .undefined => false
  | .null => false
  | .bool b => b
  | .num n => decide (n ≠ 0)
  | .str s => decide (s ≠ "")
  | .arr _ => true
  | .obj _ => true

/-- JavaScript `a || b`: the left operand when truthy, otherwise the right. -/
def jsOr (a b : JsValue) : JsValue :=
  if a.truthy then a else b

/-- Property lookup in an association list representing a JS object whose keys
are unique (the canonical form produced by `setKey`): the first entry with the
requested key, `undefined` when absent. -/
def getKey : List (String × JsValue) → String → JsValue
  | [], _ => .undefined
  | kv :: rest, k => if kv.1 == k then kv.2 else getKey rest k

/-- Property access `v.k` (only objects have properties here; any other value
yields `undefined`, matching the code's uses). -/
def JsValue.get : JsValue → String → JsValue
  | .obj fields, k => getKey fields k
  | _, _ => .undefined

/-- JS object assignment `o[k] = v`: replace the value at an existing key in
place, otherwise append the new key at the end (insertion order). -/
def setKey : List (String × JsValue) → String → JsValue → List (String × JsValue)
  | [], k, v => [(k, v)]
  | kv :: rest, k, v => if kv.1 == k then (kv.1, v) :: rest else kv :: setKey rest k v

/-- Build a JS object from the entries of an object literal, in order, with JS
duplicate-key semantics (later entries overwrite earlier values in place). -/
def buildObj (entries : List (String × JsValue)) : List (String × JsValue) :=
  entries.foldl (fun acc kv => setKey acc kv.1 kv.2) []

/-- The value the last entry of `entries` carrying key `k` assigns, if any. -/
def findLast : List (String × JsValue) → String → Option JsValue
  | [], _ => none
  | kv :: rest, k =>
    match findLast rest k with
    | some v => some v
    | none => if kv.1 == k then some kv.2 else none

theorem getKey_setKey (o : List (String × JsValue)) (k k' : String) (v : JsValue) :
    getKey (setKey o k v) k' = if k' = k then v else getKey o k' := by
  induction o with
  | nil =>
    by_cases h : k' = k
    · subst h
      simp [setKey, getKey]
    · have hb : (k == k') = false := by
        simp only [beq_eq_false_iff_ne, ne_eq]
        exact fun e => h e.symm
      simp [setKey, getKey, hb, h]
  | cons kv rest ih =>
    by_cases hk : kv.1 = k
    · have hb : (kv.1 == k) = true := by simpa using hk
      by_cases h' : k' = k
      · subst h'
        have hb' : (kv.1 == k') = true := by simpa using hk
        simp [setKey, getKey, hb, hb']
      · have hb' : (kv.1 == k') = false := by
          simp only [beq_eq_false_iff_ne, ne_eq]
          exact fun e => h' (e ▸ hk)
        simp [setKey, getKey, hb, hb', h']
    · have hb : (kv.1 == k) = false := by simpa using hk
      by_cases hc : kv.1 = k'
      · have hb' : (kv.1 == k') = true := by simpa using hc
        have h' : ¬ k' = k := fun e => hk (hc.trans e)
        simp [setKey, getKey, hb, hb', h']
      · have hb' : (kv.1 == k') = false := by simpa using hc
        simp [setKey, getKey, hb, hb', ih]

theorem getKey_buildObj_aux (entries : List (String × JsValue))
    (o : List (String × JsValue)) (k : String) :
    getKey (entries.foldl (fun acc kv => setKey acc kv.1 kv.2) o) k =
      match findLast entries k with
      | some v => v
      | none => getKey o k := by
  induction entries generalizing o with
  | nil => simp [findLast]
  | cons kv rest ih =>
    simp only [List.foldl_cons, findLast, ih, getKey_setKey]
    cases hrest : findLast rest k with
    | some v => simp
    | none =>
      by_cases hk : kv.1 = k
      · have hb : (kv.1 == k) = true := by simpa using hk
        simp [hb, hk.symm]
      · have hb : (kv.1 == k) = false := by simpa using hk
        have : ¬ k = kv.1 := fun e => hk e.symm
        simp [hb, this]

/-- Lookup in a literally-built object is the last assignment to the key. -/
theorem getKey_buildObj (entries : List (String × JsValue)) (k : String) :
    getKey (buildObj entries) k =
      match findLast entries k with
      | some v => v
      | none => .undefined := by
  have := getKey_buildObj_aux entries [] k
  simpa [buildObj, getKey] using this

theorem findLast_append (a b : List (String × JsValue)) (k : String) :
    findLast (a ++ b) k =
      match findLast b k with
      | some v => some v
      | none => findLast a k := by
  induction a with
  | nil =>
    cases h : findLast b k <;> simp [findLast, h]
  | cons kv rest ih =>
    simp only [List.cons_append, findLast, List.append_eq]
    rw [ih]
    cases hb : findLast b k <;> cases hr : findLast rest k <;> simp [hb, hr]

theorem findLast_eq_none (l : List (String × JsValue)) (k : String)
    (h : ∀ kv ∈ l, kv.1 ≠ k) : findLast l k = none := by
  induction l with
  | nil => rfl
  | cons kv rest ih =>
    have hk : kv.1 ≠ k := h kv (by simp)
    have hb : (kv.1 == k) = false := by simpa using hk
    simp [findLast, ih (fun x hx => h x (by simp [hx])), hb]

/-- SQL text column as seen by the driver: `NULL` becomes JS `null`, text a JS
string. -/
def colVal : Option String → JsValue
  | none => .null
  | some s => .str s

/-- JS whitespace recognized by `String.prototype.trim` (ASCII fragment; the
payloads are ASCII). -/
def isJsSpace (c : Char) : Bool :=
  c = ' ' || c = '\t' || c = '\n' || c = '\r'

def trimLeading : List Char → List Char
  | [] => []
  | c :: cs => if isJsSpace c then trimLeading cs else c :: cs

/-- Model of JS `s.trim()`: drop leading and trailing whitespace. -/
def jsTrim (s : String) : String :=
  ⟨(trimLeading (trimLeading s.data).reverse).reverse⟩

def charsStart : List Char → List Char → Bool
  | [], _ => true
  | _ :: _, [] => false
  | p :: ps, c :: cs => p == c && charsStart ps cs

/-- Model of JS `s.startsWith(pre)`. -/
def strStartsWith (s pre : String) : Bool :=
  charsStart pre.data s.data

/-- The opening curly brace character. -/
def braceOpen : Char := Char.ofNat 123

/-- The closing curly brace character. -/
def braceClose : Char := Char.ofNat 125

def escapeJsonChar (c : Char) : String :=
  if c = '"' then "\\\"" else if c = '\\' then "\\\\" else String.singleton c

def escapeJson (s : String) : String :=
  String.join (s.data.map escapeJsonChar)

mutual

/-- Model of `JSON.stringify` (as the pg driver applies it to object
parameters).  The stored sidecar text is never re-read by any claim, only its
presence matters. -/
def stringifyVal : JsValue → String
  | .undefined => "null"
  | .null => "null"
  | .bool b => cond b "true" "false"
  | .num n => toString n
  | .str s => "\"" ++ escapeJson s ++ "\""
  | .arr xs => "[" ++ String.intercalate "," (stringifyElems xs) ++ "]"
  | .obj fs =>
    String.singleton braceOpen ++ String.intercalate "," (stringifyMembers fs) ++
      String.singleton braceClose

def stringifyElems : List JsValue → List String
  | [] => []
  | x :: xs => stringifyVal x :: stringifyElems xs

def stringifyMembers : List (String × JsValue) → List String
  | [] => []
  | kv :: rest => ("\"" ++ escapeJson kv.1 ++ "\":" ++ stringifyVal kv.2) :: stringifyMembers rest

end

def jsonStringify (v : JsValue) : String :=
  stringifyVal v

def skipWs : List Char → List Char
  | [] => []
  | c :: cs => if isJsSpace c then skipWs cs else c :: cs

def escCharOf (e : Char) : Option Char :=
  if e = '"' then some '"'
  else if e = '\\' then some '\\'
  else if e = '/' then some '/'
  else if e = 'n' then some '\n'
  else if e = 't' then some '\t'
  else if e = 'r' then some '\r'
  else if e = 'b' then some (Char.ofNat 8)
  else if e = 'f' then some (Char.ofNat 12)
  else none

def hexVal (c : Char) : Option Nat :=
  if '0' ≤ c ∧ c ≤ '9' then some (c.toNat - 48)
  else if 'a' ≤ c ∧ c ≤ 'f' then some (c.toNat - 87)
  else if 'A' ≤ c ∧ c ≤ 'F' then some (c.toNat - 55)
  else none

/-- Body of a JSON string literal after the opening quote. -/
def parseStringBody : List Char → Except String (String × List Char)
  | [] => .error "Unterminated string in JSON"
  | c :: cs =>
    if c = '"' then .ok ("", cs)
    else if c = '\\' then
      match cs with
      | [] => .error "Bad escape in JSON"
      | e :: cs' =>
        if e = 'u' then
          match cs' with
          | h1 :: h2 :: h3 :: h4 :: cs'' =>
            match hexVal h1, hexVal h2, hexVal h3, hexVal h4 with
            | some a, some b, some c3, some d =>
              (parseStringBody cs'').map
                (fun sr => (String.singleton (Char.ofNat (((a * 16 + b) * 16 + c3) * 16 + d)) ++ sr.1, sr.2))
            | _, _, _, _ => .error "Bad unicode escape in JSON"
          | _ => .error "Bad unicode escape in JSON"
        else
          match escCharOf e with
          | some ch => (parseStringBody cs').map (fun sr => (String.singleton ch ++ sr.1, sr.2))
          | none => .error "Bad escape in JSON"
    else (parseStringBody cs).map (fun sr => (String.singleton c ++ sr.1, sr.2))

def takeDigits : List Char → List Char × List Char
  | [] => ([], [])
  | c :: cs =>
    if c.isDigit then
      let (ds, rest) := takeDigits cs
      (c :: ds, rest)
    else ([], c :: cs)

def digitsToNat (ds : List Char) : Nat :=
  ds.foldl (fun acc c => acc * 10 + (c.toNat - 48)) 0

/-- Integer JSON numbers (the platform model: the recipe payloads only carry
strings and nulls, and no claim exercises fractional numbers). -/
def parseNumber : List Char → Except String (JsValue × List Char)
  | '-' :: rest =>
    match takeDigits rest with
    | ([], _) => .error "Invalid number in JSON"
    | (ds, rest') => .ok (.num (-(digitsToNat ds : Int)), rest')
  | input =>
    match takeDigits input with
    | ([], _) => .error "Invalid number in JSON"
    | (ds, rest') => .ok (.num (digitsToNat ds), rest')

def parseLit : List Char → List Char → Option (List Char)
  | [], rest => some rest
  | _ :: _, [] => none
  | l :: ls, c :: cs => if c = l then parseLit ls cs else none

/-- Parser state: a single value, the items of an array after `[`, or the
members of an object after the opening brace (non-empty cases). -/
inductive PMode where
  | val
  | arrItems (acc : List JsValue)
  | objItems (acc : List (String × JsValue))

/-- Recursive descent core of `JSON.parse`, fuel-indexed (a single structural
definition so that concrete runs reduce definitionally).  Objects are built
with `setKey`, matching JS duplicate-key semantics. -/
def parseCore : Nat → PMode → List Char → Except String (JsValue × List Char)
  | 0, _, _ => .error "JSON too deeply nested"
  | fuel+1, .val, input =>
    match skipWs input with
    | [] => .error "Unexpected end of JSON input"
    | c :: cs =>
      if c = 'n' then
        match parseLit ['u', 'l', 'l'] cs with
        | some rest => .ok (.null, rest)
        | none => .error "Unexpected token in JSON"
      else if c = 't' then
        match parseLit ['r', 'u', 'e'] cs with
        | some rest => .ok (.bool true, rest)
        | none => .error "Unexpected token in JSON"
      else if c = 'f' then
        match parseLit ['a', 'l', 's', 'e'] cs with
        | some rest => .ok (.bool false, rest)
        | none => .error "Unexpected token in JSON"
      else if c = '"' then
        (parseStringBody cs).map (fun sr => (.str sr.1, sr.2))
      else if c = '[' then
        match skipWs cs with
        | [] => .error "Unexpected end of JSON input"
        | c2 :: cs2 =>
          if c2 = ']' then .ok (.arr [], cs2)
          else parseCore fuel (.arrItems []) (c2 :: cs2)
      else if c = braceOpen then
        match skipWs cs with
        | [] => .error "Unexpected end of JSON input"
        | c2 :: cs2 =>
          if c2 = braceClose then .ok (.obj [], cs2)
          else parseCore fuel (.objItems []) (c2 :: cs2)
      else if c = '-' ∨ c.isDigit then parseNumber (c :: cs)
      else .error "Unexpected token in JSON"
  | fuel+1, .arrItems acc, input =>
    match parseCore fuel .val input with
    | .error e => .error e
    | .ok (v, rest) =>
      match skipWs rest with
      | [] => .error "Unexpected end of JSON input"
      | c :: cs =>
        if c = ',' then parseCore fuel (.arrItems (acc ++ [v])) cs
        else if c = ']' then .ok (.arr (acc ++ [v]), cs)
        else .error "Unexpected token in JSON"
  | fuel+1, .objItems acc, input =>
    match skipWs input with
    | [] => .error "Unexpected end of JSON input"
    | c :: cs =>
      if c = '"' then
        match parseStringBody cs with
        | .error e => .error e
        | .ok (key, rest) =>
          match skipWs rest with
          | [] => .error "Unexpected end of JSON input"
          | c2 :: cs2 =>
            if c2 = ':' then
              match parseCore fuel .val cs2 with
              | .error e => .error e
              | .ok (v, rest2) =>
                match skipWs rest2 with
                | [] => .error "Unexpected end of JSON input"
                | c3 :: cs3 =>
                  if c3 = ',' then parseCore fuel (.objItems (setKey acc key v)) cs3
                  else if c3 = braceClose then .ok (.obj (setKey acc key v), cs3)
                  else .error "Unexpected token in JSON"
            else .error "Unexpected token in JSON"
      else .error "Unexpected token in JSON"

/-- Model of `JSON.parse`: parse a complete value, requiring the remainder to
be whitespace. -/
def jsonParse (s : String) : Except String JsValue :=
  match parseCore (2 * s.length + 2) .val s.data with
  | .error e => .error e
  | .ok (v, rest) =>
    match skipWs rest with
    | [] => .ok v
    | _ => .error "Unexpected non-whitespace character after JSON"


/-- A stored row of the `recipes` table in the final iteration's schema,
`Option` for nullable columns; `recipe_data` holds the JSON sidecar as text. -/
structure RecipeRow where
  id : Int
  event_id : Int
  user_id : String
  meal_id : String
  title : String
  image : String
  ingredients : String
  instructions : Option String
  custom : Bool
  category : Option String
  area : Option String
  tags : Option String
  youtube_url : Option String
  source_url : Option String
  recipe_data : Option String

/-- A stored row of the `events` table in the final iteration's schema. -/
structure EventRow where
  id : Int
  user_id : String
  name : String
  date : String
  image_url : Option String
  description : Option String
  location : Option String
  created_at : String

/-- An HTTP response: status code and JSON body. -/
structure HttpResponse where
  status : Nat
  body : JsValue

/-- `recipe.recipe_data || "\x7b\x7d"`: the text handed to `JSON.parse` by the
`GET /events` reducer (an absent or empty sidecar falls back to `"\x7b\x7d"`). -/
def sidecarText : Option String → String
  | none => "\x7b\x7d"
  | some s => if s == "" then "\x7b\x7d" else s

/-- The `Object.keys(storedData).filter(...).reduce(...)` spread of the
reducer (server.js lines 317-326): every sidecar key starting with
`strIngredient` or `strMeasure`, with its stored value, in key order. -/
def ingredientSpread : JsValue → List (String × JsValue)
  | .obj fields =>
    fields.filter (fun kv => strStartsWith kv.1 "strIngredient" || strStartsWith kv.1 "strMeasure")
  | _ => []

/-- The recipe object pushed by the `GET /events` reducer (server.js lines
304-329) for one stored row, given the parsed sidecar `storedData`. -/
def listedRecipeView (recipe : RecipeRow) (storedData : JsValue) : List (String × JsValue) :=
  buildObj
    ([("id", .num recipe.id),
      ("idMeal", .str recipe.meal_id),
      ("strMeal", .str recipe.title),
      ("strMealThumb", .str recipe.image),
      ("strCategory", jsOr (storedData.get "strCategory") (jsOr (colVal recipe.category) (.str "Unknown"))),
      ("strArea", jsOr (storedData.get "strArea") (jsOr (colVal recipe.area) (.str "Unknown"))),
      ("strTags", jsOr (storedData.get "strTags") (jsOr (colVal recipe.tags) (.str ""))),
      ("strYoutube", jsOr (storedData.get "strYoutube") (jsOr (colVal recipe.youtube_url) (.str ""))),
      ("strSource", jsOr (storedData.get "strSource") (jsOr (colVal recipe.source_url) (.str ""))),
      ("strInstructions", jsOr (colVal recipe.instructions) (jsOr (storedData.get "strInstructions") (.str ""))),
      ("custom", .bool recipe.custom)]
      ++ ingredientSpread storedData
      ++ [("strIngredients", .str recipe.ingredients)])

/-- One step of the `GET /events` reducer for one row: `JSON.parse` the
sidecar text (a throw is modelled by `Except.error`) and build the view. -/
def reconstructListed (recipe : RecipeRow) : Except String (List (String × JsValue)) :=
  match jsonParse (sidecarText recipe.recipe_data) with
  | .error e => .error e
  | .ok storedData => .ok (listedRecipeView recipe storedData)

/-- The reducer over all fetched recipe rows, tagging each view with its
`event_id` for grouping; the first `JSON.parse` throw aborts the whole
handler body (JS `reduce` has no handler of its own). -/
def reduceRecipes : List RecipeRow → Except String (List (Int × List (String × JsValue)))
  | [] => .ok []
  | r :: rest =>
    match reconstructListed r with
    | .error e => .error e
    | .ok v =>
      match reduceRecipes rest with
      | .error e => .error e
      | .ok tl => .ok ((r.event_id, v) :: tl)

/-- The event object shape of the `GET /events` response (lines 334-344). -/
def listedEventJson (e : EventRow) (recipeViews : List JsValue) : JsValue :=
  .obj (buildObj
    [("id", .num e.id),
     ("title", .str e.name),
     ("name", .str e.name),
     ("date", .str e.date),
     ("description", jsOr (colVal e.description) (.str "")),
     ("location", jsOr (colVal e.location) (.str "")),
     ("image_url", jsOr (colVal e.image_url) (.str "")),
     ("recipes", .arr recipeViews),
     ("created_at", .str e.created_at)])

/-- The `GET /events` route handler of the final iteration, as a function of
the authenticated user's query results (event rows and their recipe rows) and
of `NODE_ENV`.  A `JSON.parse` throw anywhere in the reducer reaches the
route's catch handler, which answers 500 (server.js lines 348-357). -/
def getEventsHandler (events : List EventRow) (recipes : List RecipeRow)
    (nodeEnv : String) : HttpResponse :=
  match reduceRecipes recipes with
  | .error e =>
    ⟨500, .obj (buildObj
      [("error", .str "Failed to fetch events"),
       ("details", .str (if nodeEnv == "development" then e else "Internal server error"))])⟩
  | .ok tagged =>
    ⟨200, .arr (events.map (fun e =>
      listedEventJson e ((tagged.filter (fun t => t.1 == e.id)).map (fun t => .obj t.2))))⟩

/-- How the pg driver serializes a JS parameter into a text column: strings
verbatim, scalars via `toString`, structured values via `JSON.stringify`. -/
def paramString : JsValue → String
  | .str s => s
  | .num n => toString n
  | .bool b => cond b "true" "false"
  | .null => ""
  | .undefined => ""
  | .arr xs => jsonStringify (.arr xs)
  | .obj fs => jsonStringify (.obj fs)

/-- An `x || null` insert parameter: a nullish result is stored as SQL NULL. -/
def nullableParam : JsValue → Option String
  | .null => none
  | .undefined => none
  | v => some (paramString v)

/-- JS `v.trim()`: a TypeError for a non-string receiver is a throw. -/
def jsTrimCall : JsValue → Except String String
  | .str s => .ok (jsTrim s)
  | _ => .error "TypeError: trim is not a function"

/-- JS `v?.trim()`: optional chaining yields `undefined` (here `none`) on a
nullish receiver, still a TypeError on another non-string. -/
def jsTrimChain : JsValue → Except String (Option String)
  | .undefined => .ok none
  | .null => .ok none
  | .str s => .ok (some (jsTrim s))
  | _ => .error "TypeError: trim is not a function"

/-- One pass of the ingredient-extraction loop (server.js lines 507-513):
slot `i` contributes an entry when its ingredient is truthy and nonempty
after trimming; the entry interpolates `measure?.trim()` (the text
"undefined" when the measure is nullish) with the trimmed ingredient, and is
trimmed as a whole before being pushed. -/
def ingredientSlot (recipe : JsValue) (i : Nat) : Except String (Option String) :=
  let ingredient := recipe.get ("strIngredient" ++ toString i)
  let measure := recipe.get ("strMeasure" ++ toString i)
  if ingredient.truthy then
    match jsTrimCall ingredient with
    | .error e => .error e
    | .ok ingTrim =>
      if ingTrim ≠ "" then
        match jsTrimChain measure with
        | .error e => .error e
        | .ok mt =>
          .ok (some (jsTrim ((match mt with | some m => m | none => "undefined") ++ " " ++ ingTrim)))
      else .ok none
  else .ok none

def extractLoop (recipe : JsValue) : List Nat → Except String (List String)
  | [] => .ok []
  | i :: rest =>
    match ingredientSlot recipe i with
    | .error e => .error e
    | .ok entry =>
      match extractLoop recipe rest with
      | .error e => .error e
      | .ok tl => .ok (match entry with | some s => s :: tl | none => tl)

/-- The full ingredient extraction of `POST /events/:id/recipes` (server.js
lines 505-514): scan slots 1..20 in order and join the entries with ", ". -/
def extractIngredients (recipe : JsValue) : Except String String :=
  match extractLoop recipe (List.range' 1 20) with
  | .error e => .error e
  | .ok entries => .ok (String.intercalate ", " entries)

/-- The row inserted by `POST /events/:id/recipes` (server.js lines 516-537),
with the defaulting its insert parameters apply. -/
def rowOfPayload (eventId : Int) (userId : String) (newId : Int) (payload : JsValue)
    (ingredientsText : String) : RecipeRow where
  id := newId
  event_id := eventId
  user_id := userId
  meal_id := paramString (payload.get "idMeal")
  title := paramString (payload.get "strMeal")
  image := paramString (jsOr (payload.get "strMealThumb") (.str ""))
  ingredients := ingredientsText
  instructions := some (paramString (jsOr (payload.get "strInstructions") (.str "")))
  custom := false
  category := some (paramString (jsOr (payload.get "strCategory") (.str "Unknown")))
  area := some (paramString (jsOr (payload.get "strArea") (.str "Unknown")))
  tags := nullableParam (jsOr (payload.get "strTags") .null)
  youtube_url := nullableParam (jsOr (payload.get "strYoutube") .null)
  source_url := nullableParam (jsOr (payload.get "strSource") .null)
  recipe_data := some (jsonStringify payload)

/-- The storage state: the `events` and `recipes` tables. -/
structure DB where
  events : List EventRow
  recipes : List RecipeRow

/-- The projection the second `getEventWithRecipes` declaration selects from
`recipes` (server.js lines 644-650): only these seven columns are fetched, so
`recipe_data`, `category`, `area`, `tags`, `youtube_url` and `source_url`
read as `undefined` on its row objects. -/
structure RecipeRowV2 where
  id : Int
  meal_id : String
  title : String
  image : String
  ingredients : String
  instructions : Option String
  custom : Bool

def projectV2 (r : RecipeRow) : RecipeRowV2 where
  id := r.id
  meal_id := r.meal_id
  title := r.title
  image := r.image
  ingredients := r.ingredients
  instructions := r.instructions
  custom := r.custom

/-- The recipe object built by the second (shadowing) `getEventWithRecipes`
(server.js lines 652-668).  `recipe.recipe_data` is not selected, so `full`
is `undefined ||` the empty-object default, and the unselected merge columns
read as `undefined`. -/
def v2RecipeView (r : RecipeRowV2) : List (String × JsValue) :=
  let full : JsValue := jsOr .undefined (.obj [])
  buildObj
    [("id", .num r.id),
     ("idMeal", .str r.meal_id),
     ("strMeal", .str r.title),
     ("strMealThumb", .str r.image),
     ("strCategory", jsOr .undefined (jsOr (full.get "strCategory") (.str "Unknown"))),
     ("strArea", jsOr .undefined (jsOr (full.get "strArea") (.str "Unknown"))),
     ("strTags", jsOr .undefined (jsOr (full.get "strTags") (.str ""))),
     ("strYoutube", jsOr .undefined (jsOr (full.get "strYoutube") (.str ""))),
     ("strSource", jsOr .undefined (jsOr (full.get "strSource") (.str ""))),
     ("strIngredients", .str r.ingredients),
     ("strInstructions", colVal r.instructions),
     ("custom", .bool r.custom)]

def insertByIdDesc (r : RecipeRow) : List RecipeRow → List RecipeRow
  | [] => [r]
  | x :: xs => if x.id ≤ r.id then r :: x :: xs else x :: insertByIdDesc r xs

/-- `ORDER BY id DESC` over the filtered recipe rows. -/
def sortByIdDesc (l : List RecipeRow) : List RecipeRow :=
  l.foldr insertByIdDesc []

/-- The `getEventWithRecipes` helper actually bound at call time: server.js
declares two functions of this name (lines 551-625 and 627-685); both are
hoisted and the later declaration overwrites the earlier binding, so every
call -- in particular the one in `POST /events/:id/recipes` (line 542) --
runs the second body, whose recipe query selects neither `recipe_data` nor
the category/area/tags/youtube_url/source_url columns. -/
def getEventWithRecipes (db : DB) (eventId : Int) (userId : String) : Except String JsValue :=
  match db.events.filter (fun e => e.id == eventId && e.user_id == userId) with
  | [] => .error "Event not found"
  | e :: _ =>
    let rows := sortByIdDesc (db.recipes.filter (fun r => r.event_id == eventId && r.user_id == userId))
    let recipes := rows.map (fun r => JsValue.obj (v2RecipeView (projectV2 r)))
    .ok (.obj (buildObj
      [("id", .num e.id),
       ("title", .str e.name),
       ("name", .str e.name),
       ("date", .str e.date),
       ("description", jsOr (colVal e.description) (.str "")),
       ("location", jsOr (colVal e.location) (.str "")),
       ("image_url", jsOr (colVal e.image_url) (.str "")),
       ("recipes", .arr recipes),
       ("created_at", .str e.created_at)]))

/-- The `POST /events/:id/recipes` handler (server.js lines 465-548):
validation, ownership check, duplicate check, ingredient extraction, insert,
then a re-read through the (shadowing) `getEventWithRecipes`; a throw lands
in the route's catch handler (500, "Failed to add recipe to event"). -/
def postEventRecipe (db : DB) (userId : String) (eventId : Int) (payload : JsValue)
    (newId : Int) : DB × HttpResponse :=
  if !(payload.truthy && (payload.get "idMeal").truthy && (payload.get "strMeal").truthy) then
    (db, ⟨400, .obj (buildObj [("error", .str "Invalid recipe data.")])⟩)
  else if (db.events.filter (fun e => e.id == eventId && e.user_id == userId)).isEmpty then
    (db, ⟨404, .obj (buildObj [("error", .str "Event not found or access denied")])⟩)
  else if !(db.recipes.filter (fun r =>
      r.event_id == eventId && r.meal_id == paramString (payload.get "idMeal"))).isEmpty then
    (db, ⟨409, .obj (buildObj [("error", .str "Recipe already added to this event")])⟩)
  else
    match extractIngredients payload with
    | .error _ => (db, ⟨500, .obj (buildObj [("error", .str "Failed to add recipe to event")])⟩)
    | .ok ingredientsText =>
      let db1 : DB := ⟨db.events, db.recipes ++ [rowOfPayload eventId userId newId payload ingredientsText]⟩
      match getEventWithRecipes db1 eventId userId with
      | .error _ => (db1, ⟨500, .obj (buildObj [("error", .str "Failed to add recipe to event")])⟩)
      | .ok body => (db1, ⟨200, body⟩)

/-- Modelled from the spec: the database schema is not part of the repository
sources; the spec states events are "deleted explicitly, with all owned
recipes cascading or being explicitly deleted alongside it" (and the part_002
iteration comments "Recipes will be deleted automatically due to CASCADE").
So the SQL `DELETE FROM events WHERE id = $1 AND user_id = $2` also removes
every recipe row referencing a deleted event. -/
def sqlDeleteEventCascade (db : DB) (eventId : Int) (userId : String) : DB :=
  let removed := db.events.filter (fun e => e.id == eventId && e.user_id == userId)
  ⟨db.events.filter (fun e => !(e.id == eventId && e.user_id == userId)),
   db.recipes.filter (fun r => !(removed.any (fun e => e.id == r.event_id)))⟩

/-- The `DELETE /events/:id` handler (server.js lines 441-462): run the
delete with `RETURNING id`; 404 when no row matched, confirmation otherwise. -/
def deleteEventHandler (db : DB) (userId : String) (eventId : Int) : DB × HttpResponse :=
  let returned := db.events.filter (fun e => e.id == eventId && e.user_id == userId)
  let db' := sqlDeleteEventCascade db eventId userId
  if returned.isEmpty then
    (db', ⟨404, .obj (buildObj [("error", .str "Event not found or access denied")])⟩)
  else
    (db', ⟨200, .obj (buildObj [("message", .str "Event deleted")])⟩)

/-- `SELECT * FROM recipes WHERE id = $1`: the later fetch by recipe
identifier that the spec's deletion property quantifies over. -/
def fetchRecipesById (db : DB) (recipeId : Int) : List RecipeRow :=
  db.recipes.filter (fun r => r.id == recipeId)

/-- The `GET /events` catch handler of the final server.js iteration (lines
348-357): a generic error, diagnostic details only when NODE_ENV is
"development". -/
def catchGetEventsFinal (nodeEnv errMessage : String) : HttpResponse :=
  ⟨500, .obj (buildObj
    [("error", .str "Failed to fetch events"),
     ("details", .str (if nodeEnv == "development" then errMessage else "Internal server error"))])⟩

/-- The `GET /events` catch handler of the part_002 iteration (lines 92-95):
the raw error message is the response body, in every environment. -/
def catchGetEventsPart2 (errMessage : String) : HttpResponse :=
  ⟨500, .obj (buildObj [("error", .str errMessage)])⟩

/-- The `POST /events/:id/recipes` catch handler of the part_001 iteration
(lines 162-170): `details` carries the error message unconditionally; only
the stack trace is gated on NODE_ENV = "development". -/
def catchAddRecipePart1 (nodeEnv errMessage errStack : String) : HttpResponse :=
  ⟨500, .obj (buildObj
    [("error", .str "Internal Server Error"),
     ("details", .str errMessage),
     ("stack", if nodeEnv == "development" then .str errStack else .undefined)])⟩

theorem jsOr_pos (a b : JsValue) (h : a.truthy = true) : jsOr a b = a := by
  simp [jsOr, h]

theorem jsOr_neg (a b : JsValue) (h : a.truthy = false) : jsOr a b = b := by
  simp [jsOr, h]

theorem findLast_spread_none (sd : JsValue) (k : String)
    (h1 : strStartsWith k "strIngredient" = false)
    (h2 : strStartsWith k "strMeasure" = false) :
    findLast (ingredientSpread sd) k = none := by
  refine findLast_eq_none _ _ (fun kv hkv he => ?_)
  cases sd <;> simp only [ingredientSpread, List.not_mem_nil] at hkv
  rename_i fields
  have hpred := (List.mem_filter.mp hkv).2
  rw [he, h1, h2] at hpred
  simp at hpred

theorem listedRecipeView_strCategory (r : RecipeRow) (sd : JsValue) :
    getKey (listedRecipeView r sd) "strCategory" =
      jsOr (sd.get "strCategory") (jsOr (colVal r.category) (.str "Unknown")) := by
  have hs : findLast (ingredientSpread sd) "strCategory" = none :=
    findLast_spread_none sd "strCategory" (by decide) (by decide)
  rw [listedRecipeView, getKey_buildObj, findLast_append, findLast_append, hs]
  rfl

theorem listedRecipeView_strArea (r : RecipeRow) (sd : JsValue) :
    getKey (listedRecipeView r sd) "strArea" =
      jsOr (sd.get "strArea") (jsOr (colVal r.area) (.str "Unknown")) := by
  have hs : findLast (ingredientSpread sd) "strArea" = none :=
    findLast_spread_none sd "strArea" (by decide) (by decide)
  rw [listedRecipeView, getKey_buildObj, findLast_append, findLast_append, hs]
  rfl

theorem listedRecipeView_strTags (r : RecipeRow) (sd : JsValue) :
    getKey (listedRecipeView r sd) "strTags" =
      jsOr (sd.get "strTags") (jsOr (colVal r.tags) (.str "")) := by
  have hs : findLast (ingredientSpread sd) "strTags" = none :=
    findLast_spread_none sd "strTags" (by decide) (by decide)
  rw [listedRecipeView, getKey_buildObj, findLast_append, findLast_append, hs]
  rfl

theorem listedRecipeView_strYoutube (r : RecipeRow) (sd : JsValue) :
    getKey (listedRecipeView r sd) "strYoutube" =
      jsOr (sd.get "strYoutube") (jsOr (colVal r.youtube_url) (.str "")) := by
  have hs : findLast (ingredientSpread sd) "strYoutube" = none :=
    findLast_spread_none sd "strYoutube" (by decide) (by decide)
  rw [listedRecipeView, getKey_buildObj, findLast_append, findLast_append, hs]
  rfl

theorem listedRecipeView_strSource (r : RecipeRow) (sd : JsValue) :
    getKey (listedRecipeView r sd) "strSource" =
      jsOr (sd.get "strSource") (jsOr (colVal r.source_url) (.str "")) := by
  have hs : findLast (ingredientSpread sd) "strSource" = none :=
    findLast_spread_none sd "strSource" (by decide) (by decide)
  rw [listedRecipeView, getKey_buildObj, findLast_append, findLast_append, hs]
  rfl

theorem listedRecipeView_strInstructions (r : RecipeRow) (sd : JsValue) :
    getKey (listedRecipeView r sd) "strInstructions" =
      jsOr (colVal r.instructions) (jsOr (sd.get "strInstructions") (.str "")) := by
  have hs : findLast (ingredientSpread sd) "strInstructions" = none :=
    findLast_spread_none sd "strInstructions" (by decide) (by decide)
  rw [listedRecipeView, getKey_buildObj, findLast_append, findLast_append, hs]
  rfl

/-! ### Claim C1 : category/area merge precedence in reconstruction -/

/-- A stored row whose sidecar parses successfully and supplies
`strCategory = "Unknown"` while the dedicated column stores `"Mexican"`. -/
def c1Row : RecipeRow where
  id := 1
  event_id := 10
  user_id := "user-1"
  meal_id := "52977"
  title := "Corba"
  image := ""
  ingredients := ""
  instructions := none
  custom := false
  category := some "Mexican"
  area := none
  tags := none
  youtube_url := none
  source_url := none
  recipe_data := some "\x7b\"strCategory\":\"Unknown\"\x7d"

/-- C1 fails as stated: the claim says a column value wins over a sidecar
value equal to "Unknown", but on `c1Row` (sidecar `strCategory: "Unknown"`,
column `"Mexican"`) the reducer reconstructs `strCategory = "Unknown"` — the
truthy sidecar string wins unconditionally. -/
theorem c1_column_loses_to_unknown_sidecar :
    reconstructListed c1Row =
      .ok (listedRecipeView c1Row (.obj [("strCategory", .str "Unknown")])) ∧
    getKey (listedRecipeView c1Row (.obj [("strCategory", .str "Unknown")])) "strCategory" =
      .str "Unknown" ∧
    c1Row.category = some "Mexican" ∧ ("Unknown" : String) ≠ "Mexican" :=
  ⟨rfl, rfl, rfl, by decide⟩

/-- C1 (amended): for every stored recipe row whose sidecar parses
successfully, the reconstructed `strCategory`/`strArea` equal the sidecar's
value whenever that value is truthy — including an explicit `"Unknown"` (the
column does not win over it); when the sidecar value is absent or falsy, the
column value wins if non-null and nonempty, and the result defaults to
`"Unknown"` when the column is null or empty.  The spec's two examples
(sidecar "Italian" with column "Unknown" gives "Italian"; column "Mexican"
with no sidecar gives "Mexican") continue to hold. -/
theorem c1_amended_category_area_merge (r : RecipeRow) (sd : JsValue)
    (hparse : jsonParse (sidecarText r.recipe_data) = .ok sd) :
    ∃ o, reconstructListed r = .ok o ∧
      ((sd.get "strCategory").truthy = true → getKey o "strCategory" = sd.get "strCategory") ∧
      ((sd.get "strCategory").truthy = false →
        (∀ c, r.category = some c → c ≠ "" → getKey o "strCategory" = .str c) ∧
        ((r.category = none ∨ r.category = some "") → getKey o "strCategory" = .str "Unknown")) ∧
      ((sd.get "strArea").truthy = true → getKey o "strArea" = sd.get "strArea") ∧
      ((sd.get "strArea").truthy = false →
        (∀ a, r.area = some a → a ≠ "" → getKey o "strArea" = .str a) ∧
        ((r.area = none ∨ r.area = some "") → getKey o "strArea" = .str "Unknown")) := by
  refine ⟨listedRecipeView r sd, by rw [reconstructListed, hparse], ?_, ?_, ?_, ?_⟩
  · intro ht
    rw [listedRecipeView_strCategory, jsOr_pos _ _ ht]
  · intro hf
    constructor
    · intro c hc hne
      rw [listedRecipeView_strCategory, jsOr_neg _ _ hf, hc]
      exact jsOr_pos _ _ (by simp [colVal, JsValue.truthy, hne])
    · intro hcol
      rw [listedRecipeView_strCategory, jsOr_neg _ _ hf]
      rcases hcol with h | h <;> rw [h] <;> exact jsOr_neg _ _ (by simp [colVal, JsValue.truthy])
  · intro ht
    rw [listedRecipeView_strArea, jsOr_pos _ _ ht]
  · intro hf
    constructor
    · intro a ha hne
      rw [listedRecipeView_strArea, jsOr_neg _ _ hf, ha]
      exact jsOr_pos _ _ (by simp [colVal, JsValue.truthy, hne])
    · intro hcol
      rw [listedRecipeView_strArea, jsOr_neg _ _ hf]
      rcases hcol with h | h <;> rw [h] <;> exact jsOr_neg _ _ (by simp [colVal, JsValue.truthy])

/-- Sidecar `strCategory: "Italian"`, column `"Unknown"`. -/
def c1ItalianRow : RecipeRow where
  id := 2
  event_id := 10
  user_id := "user-1"
  meal_id := "52771"
  title := "Spicy Arrabiata Penne"
  image := ""
  ingredients := ""
  instructions := none
  custom := false
  category := some "Unknown"
  area := none
  tags := none
  youtube_url := none
  source_url := none
  recipe_data := some "\x7b\"strCategory\":\"Italian\"\x7d"

/-- Column `"Mexican"`, sidecar absent. -/
def c1MexicanRow : RecipeRow where
  id := 3
  event_id := 10
  user_id := "user-1"
  meal_id := "52977"
  title := "Tacos"
  image := ""
  ingredients := ""
  instructions := none
  custom := false
  category := some "Mexican"
  area := none
  tags := none
  youtube_url := none
  source_url := none
  recipe_data := none

/-- Witness: the amended C1 at the spec's two concrete examples. -/
theorem c1_amended_category_area_merge_witness :
    (∃ o, reconstructListed c1ItalianRow = .ok o ∧ getKey o "strCategory" = .str "Italian") ∧
    (∃ o, reconstructListed c1MexicanRow = .ok o ∧ getKey o "strCategory" = .str "Mexican") := by
  constructor
  · obtain ⟨o, ho, h1, _, _, _⟩ :=
      c1_amended_category_area_merge c1ItalianRow (.obj [("strCategory", .str "Italian")]) (by rfl)
    exact ⟨o, ho, (h1 (by rfl)).trans rfl⟩
  · obtain ⟨o, ho, _, h2, _, _⟩ :=
      c1_amended_category_area_merge c1MexicanRow (.obj []) (by rfl)
    exact ⟨o, ho, (h2 (by rfl)).1 "Mexican" rfl (by decide)⟩

/-! ### Claim C3 : tags/youtube/source/instructions merge in reconstruction -/

/-- A stored row with a nonempty instructions column and a sidecar that
supplies a truthy `strInstructions`. -/
def c3Row : RecipeRow where
  id := 4
  event_id := 10
  user_id := "user-1"
  meal_id := "52771"
  title := "Spicy Arrabiata Penne"
  image := ""
  ingredients := ""
  instructions := some "Boil the pasta."
  custom := false
  category := none
  area := none
  tags := none
  youtube_url := none
  source_url := none
  recipe_data := some "\x7b\"strInstructions\":\"Fry everything.\"\x7d"

/-- C3 fails as stated for `strInstructions`: the claim says the sidecar
unconditionally wins for all four fields, but the reducer computes
`recipe.instructions || storedData.strInstructions || ""` — the column wins.
On `c3Row` the truthy sidecar value "Fry everything." loses to the column
value "Boil the pasta.". -/
theorem c3_instructions_column_wins :
    reconstructListed c3Row =
      .ok (listedRecipeView c3Row (.obj [("strInstructions", .str "Fry everything.")])) ∧
    getKey (listedRecipeView c3Row (.obj [("strInstructions", .str "Fry everything.")]))
        "strInstructions" = .str "Boil the pasta." ∧
    (JsValue.str "Fry everything.").truthy = true ∧
    ("Boil the pasta." : String) ≠ "Fry everything." :=
  ⟨rfl, rfl, rfl, by decide⟩

/-- C3 (amended): for every stored recipe row whose sidecar parses
successfully, the reconstructed `strTags`, `strYoutube` and `strSource` equal
the sidecar's value whenever it is truthy and fall back to the column (or "")
otherwise — but `strInstructions` has the opposite precedence: the
instructions column wins whenever non-null and nonempty, and the sidecar's
`strInstructions` is used only when the column is null or empty. -/
theorem c3_amended_sidecar_fields_merge (r : RecipeRow) (sd : JsValue)
    (hparse : jsonParse (sidecarText r.recipe_data) = .ok sd) :
    ∃ o, reconstructListed r = .ok o ∧
      ((sd.get "strTags").truthy = true → getKey o "strTags" = sd.get "strTags") ∧
      ((sd.get "strTags").truthy = false →
        getKey o "strTags" = jsOr (colVal r.tags) (.str "")) ∧
      ((sd.get "strYoutube").truthy = true → getKey o "strYoutube" = sd.get "strYoutube") ∧
      ((sd.get "strYoutube").truthy = false →
        getKey o "strYoutube" = jsOr (colVal r.youtube_url) (.str "")) ∧
      ((sd.get "strSource").truthy = true → getKey o "strSource" = sd.get "strSource") ∧
      ((sd.get "strSource").truthy = false →
        getKey o "strSource" = jsOr (colVal r.source_url) (.str "")) ∧
      (∀ s, r.instructions = some s → s ≠ "" → getKey o "strInstructions" = .str s) ∧
      ((r.instructions = none ∨ r.instructions = some "") →
        ((sd.get "strInstructions").truthy = true →
          getKey o "strInstructions" = sd.get "strInstructions") ∧
        ((sd.get "strInstructions").truthy = false →
          getKey o "strInstructions" = .str "")) := by
  refine ⟨listedRecipeView r sd, by rw [reconstructListed, hparse], ?_, ?_, ?_, ?_, ?_, ?_, ?_, ?_⟩
  · intro ht
    rw [listedRecipeView_strTags, jsOr_pos _ _ ht]
  · intro hf
    rw [listedRecipeView_strTags, jsOr_neg _ _ hf]
  · intro ht
    rw [listedRecipeView_strYoutube, jsOr_pos _ _ ht]
  · intro hf
    rw [listedRecipeView_strYoutube, jsOr_neg _ _ hf]
  · intro ht
    rw [listedRecipeView_strSource, jsOr_pos _ _ ht]
  · intro hf
    rw [listedRecipeView_strSource, jsOr_neg _ _ hf]
  · intro s hs hne
    rw [listedRecipeView_strInstructions, hs]
    exact jsOr_pos _ _ (by simp [colVal, JsValue.truthy, hne])
  · intro hcol
    have hfalse : (colVal r.instructions).truthy = false := by
      rcases hcol with h | h <;> rw [h] <;> simp [colVal, JsValue.truthy]
    constructor
    · intro ht
      rw [listedRecipeView_strInstructions, jsOr_neg _ _ hfalse, jsOr_pos _ _ ht]
    · intro hf
      rw [listedRecipeView_strInstructions, jsOr_neg _ _ hfalse, jsOr_neg _ _ hf]

/-- A row with a null instructions column, a sidecar carrying tags and
instructions. -/
def c3SidecarRow : RecipeRow where
  id := 5
  event_id := 10
  user_id := "user-1"
  meal_id := "52771"
  title := "Spicy Arrabiata Penne"
  image := ""
  ingredients := ""
  instructions := none
  custom := false
  category := none
  area := none
  tags := none
  youtube_url := none
  source_url := none
  recipe_data := some "\x7b\"strTags\":\"Pasta\",\"strInstructions\":\"Fry everything.\"\x7d"

/-- Witness: the amended C3 at concrete rows — the sidecar's truthy tags win,
and the nonempty instructions column beats the truthy sidecar value. -/
theorem c3_amended_sidecar_fields_merge_witness :
    (∃ o, reconstructListed c3SidecarRow = .ok o ∧
      getKey o "strTags" = .str "Pasta" ∧
      getKey o "strInstructions" = .str "Fry everything.") ∧
    (∃ o, reconstructListed c3Row = .ok o ∧
      getKey o "strInstructions" = .str "Boil the pasta.") := by
  constructor
  · obtain ⟨o, ho, htags, _, _, _, _, _, _, hinstr⟩ :=
      c3_amended_sidecar_fields_merge c3SidecarRow
        (.obj [("strTags", .str "Pasta"), ("strInstructions", .str "Fry everything.")]) (by rfl)
    refine ⟨o, ho, (htags (by rfl)).trans rfl, ?_⟩
    exact ((hinstr (Or.inl rfl)).1 (by rfl)).trans rfl
  · obtain ⟨o, ho, _, _, _, _, _, _, hcol, _⟩ :=
      c3_amended_sidecar_fields_merge c3Row
        (.obj [("strInstructions", .str "Fry everything.")]) (by rfl)
    exact ⟨o, ho, hcol "Boil the pasta." rfl (by decide)⟩

/-! ### Claim C4 : copying of strIngredientN/strMeasureN sidecar keys -/

theorem spread_key_ne (k t : String)
    (hk : (strStartsWith k "strIngredient" || strStartsWith k "strMeasure") = true)
    (ht : (strStartsWith t "strIngredient" || strStartsWith t "strMeasure") = false) :
    k ≠ t := by
  intro he
  rw [he, ht] at hk
  exact absurd hk (by simp)

theorem findLast_fixed_none (k : String) (v1 v2 v3 v4 v5 v6 v7 v8 v9 v10 v11 : JsValue)
    (hk : (strStartsWith k "strIngredient" || strStartsWith k "strMeasure") = true) :
    findLast [("id", v1), ("idMeal", v2), ("strMeal", v3), ("strMealThumb", v4),
      ("strCategory", v5), ("strArea", v6), ("strTags", v7), ("strYoutube", v8),
      ("strSource", v9), ("strInstructions", v10), ("custom", v11)] k = none := by
  refine findLast_eq_none _ _ (fun kv hkv => ?_)
  simp only [List.mem_cons, List.not_mem_nil, or_false] at hkv
  rcases hkv with h|h|h|h|h|h|h|h|h|h|h <;>
    (rw [h]; dsimp only; exact Ne.symm (spread_key_ne k _ hk (by decide)))

theorem findLast_filter_of_pred (l : List (String × JsValue))
    (p : String × JsValue → Bool) (k : String) (hp : ∀ v, p (k, v) = true) :
    findLast (l.filter p) k = findLast l k := by
  induction l with
  | nil => rfl
  | cons kv rest ih =>
    by_cases hkv : p kv = true
    · rw [List.filter_cons_of_pos hkv]
      simp only [findLast, ih]
    · rw [List.filter_cons_of_neg (by simpa using hkv), ih]
      have hne : (kv.1 == k) = false := by
        rcases kv with ⟨k0, v0⟩
        by_cases he : k0 = k
        · subst he
          exact absurd (hp v0) hkv
        · simpa using he
      cases h : findLast rest k <;> simp [findLast, hne, h]

theorem findLast_of_mem_nodup (l : List (String × JsValue)) (k : String) (v : JsValue)
    (hmem : (k, v) ∈ l) (hnd : (l.map Prod.fst).Nodup) : findLast l k = some v := by
  induction l with
  | nil => simp at hmem
  | cons kv rest ih =>
    have hnd' := hnd
    rw [List.map_cons, List.nodup_cons] at hnd'
    rcases List.mem_cons.mp hmem with he | hm
    · have hkk : kv.1 = k := by rw [← he]
      have hrest : findLast rest k = none := by
        refine findLast_eq_none _ _ (fun x hx hxk => hnd'.1 ?_)
        rw [hkk, ← hxk]
        exact List.mem_map_of_mem Prod.fst hx
      have hb : (kv.1 == k) = true := by simpa using hkk
      have hv : kv.2 = v := by rw [← he]
      simp [findLast, hrest, hb, hv]
    · simp [findLast, ih hm hnd'.2]

/-- The reducer's output at a key matching one of the two recognized sidecar
prefixes (other than `strIngredients`, which a later literal entry assigns):
exactly the sidecar's last value for that key, `undefined` when the sidecar
has none. -/
theorem listedRecipeView_spread_lookup (r : RecipeRow) (fields : List (String × JsValue))
    (k : String)
    (hk : (strStartsWith k "strIngredient" || strStartsWith k "strMeasure") = true)
    (hks : k ≠ "strIngredients") :
    getKey (listedRecipeView r (.obj fields)) k =
      match findLast fields k with
      | some v => v
      | none => .undefined := by
  rw [listedRecipeView, getKey_buildObj, findLast_append, findLast_append]
  have hsi : findLast [("strIngredients", JsValue.str r.ingredients)] k = none := by
    have hb : (("strIngredients" : String) == k) = false := by
      simpa using (Ne.symm hks)
    simp [findLast, hb]
  have hspread : findLast (ingredientSpread (.obj fields)) k = findLast fields k := by
    unfold ingredientSpread
    exact findLast_filter_of_pred fields _ k (fun v => hk)
  rw [hsi, hspread, findLast_fixed_none k _ _ _ _ _ _ _ _ _ _ _ hk]
  cases hf : findLast fields k <;> simp

/-- A stored row whose sidecar contains `strIngredient1` with the falsy value
`""`. -/
def c4Row : RecipeRow where
  id := 6
  event_id := 10
  user_id := "user-1"
  meal_id := "52977"
  title := "Corba"
  image := ""
  ingredients := ""
  instructions := none
  custom := false
  category := none
  area := none
  tags := none
  youtube_url := none
  source_url := none
  recipe_data := some "\x7b\"strIngredient1\":\"\"\x7d"

/-- C4 fails as stated: the claim says every `strIngredientN`/`strMeasureN`
key with a falsy value is skipped, but the reducer's
`Object.keys(...).filter(...).reduce(...)` copies every matching key with no
test on the value: on `c4Row` the falsy (`""`-valued) `strIngredient1` key
appears in the output with value `""`. -/
theorem c4_falsy_values_are_copied :
    reconstructListed c4Row =
      .ok (listedRecipeView c4Row (.obj [("strIngredient1", .str "")])) ∧
    getKey (listedRecipeView c4Row (.obj [("strIngredient1", .str "")])) "strIngredient1" =
      .str "" ∧
    (JsValue.str "").truthy = false :=
  ⟨rfl, rfl, rfl⟩

/-- C4 (amended): for every stored recipe row whose sidecar parses
successfully (to an object, whose keys are unique as `JSON.parse`
guarantees), the output carries every sidecar key starting with
`strIngredient` or `strMeasure` with its sidecar value verbatim — truthy or
falsy, no skipping — except the exact key `strIngredients`, which a later
literal entry overwrites with the column-derived ingredients string;
prefixed keys not present in the sidecar are absent (`undefined`). -/
theorem c4_amended_spread_copies_verbatim (r : RecipeRow) (fields : List (String × JsValue))
    (hparse : jsonParse (sidecarText r.recipe_data) = .ok (.obj fields))
    (hnd : (fields.map Prod.fst).Nodup) :
    ∃ o, reconstructListed r = .ok o ∧
      (∀ k v, (k, v) ∈ fields →
        (strStartsWith k "strIngredient" || strStartsWith k "strMeasure") = true →
        k ≠ "strIngredients" → getKey o k = v) ∧
      (∀ k, (strStartsWith k "strIngredient" || strStartsWith k "strMeasure") = true →
        k ≠ "strIngredients" → k ∉ fields.map Prod.fst → getKey o k = .undefined) ∧
      getKey o "strIngredients" = .str r.ingredients := by
  refine ⟨listedRecipeView r (.obj fields), by rw [reconstructListed, hparse], ?_, ?_, ?_⟩
  · intro k v hmem hk hks
    rw [listedRecipeView_spread_lookup r fields k hk hks,
      findLast_of_mem_nodup fields k v hmem hnd]
  · intro k hk hks habs
    have hnone : findLast fields k = none := by
      refine findLast_eq_none _ _ (fun kv hkv he => ?_)
      exact habs (he ▸ List.mem_map_of_mem Prod.fst hkv)
    rw [listedRecipeView_spread_lookup r fields k hk hks, hnone]
  · have hsi : findLast
        (ingredientSpread (JsValue.obj fields) ++ [("strIngredients", JsValue.str r.ingredients)])
        "strIngredients" = some (JsValue.str r.ingredients) := by
      rw [findLast_append]
      rfl
    rw [listedRecipeView, getKey_buildObj, List.append_assoc, findLast_append, hsi]

/-- A stored row whose sidecar carries one falsy and one truthy prefixed key. -/
def c4WitnessRow : RecipeRow where
  id := 7
  event_id := 10
  user_id := "user-1"
  meal_id := "52977"
  title := "Corba"
  image := ""
  ingredients := "200g Flour"
  instructions := none
  custom := false
  category := none
  area := none
  tags := none
  youtube_url := none
  source_url := none
  recipe_data := some "\x7b\"strIngredient1\":\"Flour\",\"strMeasure1\":\"\"\x7d"

/-- Witness: the amended C4 at a concrete row — the truthy `strIngredient1`
and falsy `strMeasure1` are both copied verbatim, `strIngredient2` is
absent, and `strIngredients` is the column string. -/
theorem c4_amended_spread_copies_verbatim_witness :
    ∃ o, reconstructListed c4WitnessRow = .ok o ∧
      getKey o "strIngredient1" = .str "Flour" ∧
      getKey o "strMeasure1" = .str "" ∧
      getKey o "strIngredient2" = .undefined ∧
      getKey o "strIngredients" = .str "200g Flour" := by
  obtain ⟨o, ho, hcopy, habs, hing⟩ :=
    c4_amended_spread_copies_verbatim c4WitnessRow
      [("strIngredient1", .str "Flour"), ("strMeasure1", .str "")] (by rfl) (by decide)
  refine ⟨o, ho, ?_, ?_, ?_, hing⟩
  · exact hcopy "strIngredient1" (.str "Flour") (by simp) (by decide) (by decide)
  · exact hcopy "strMeasure1" (.str "") (by simp) (by decide) (by decide)
  · exact habs "strIngredient2" (by decide) (by decide) (by decide)

/-! ### Claim C2 : behavior of reconstruction on absent/malformed sidecars -/

theorem reduceRecipes_error_of_mem (l : List RecipeRow) (r : RecipeRow) (e : String)
    (hr : r ∈ l) (he : reconstructListed r = .error e) :
    ∃ e', reduceRecipes l = .error e' := by
  induction l with
  | nil => simp at hr
  | cons x rest ih =>
    rcases List.mem_cons.mp hr with hx | hm
    · subst hx
      exact ⟨e, by simp only [reduceRecipes, he]⟩
    · cases hx2 : reconstructListed x with
      | error e2 => exact ⟨e2, by simp only [reduceRecipes, hx2]⟩
      | ok v =>
        obtain ⟨e', he'⟩ := ih hm
        exact ⟨e', by simp only [reduceRecipes, hx2, he']⟩

/-- An event row for the reconstruction fixtures. -/
def c2Event : EventRow where
  id := 10
  user_id := "user-1"
  name := "Dinner party"
  date := "2025-08-30"
  image_url := none
  description := none
  location := none
  created_at := "2025-08-01"

/-- A stored row whose sidecar column holds text that is not valid JSON. -/
def c2BadRow : RecipeRow where
  id := 8
  event_id := 10
  user_id := "user-1"
  meal_id := "52977"
  title := "Corba"
  image := ""
  ingredients := ""
  instructions := none
  custom := false
  category := some "Side"
  area := none
  tags := none
  youtube_url := none
  source_url := none
  recipe_data := some "\x7bnot json"

/-- C2 fails as stated: the claim says a malformed sidecar still yields the
column-derived defaults and that no error response is produced; but
`JSON.parse` throws on `c2BadRow`'s sidecar, the throw reaches the route's
catch handler, and `GET /events` answers a 500 error response instead of any
reconstructed recipe. -/
theorem c2_malformed_sidecar_produces_error_response :
    (∃ e, jsonParse (sidecarText c2BadRow.recipe_data) = .error e) ∧
    (getEventsHandler [c2Event] [c2BadRow] "production").status = 500 ∧
    (getEventsHandler [c2Event] [c2BadRow] "production").body.get "error" =
      .str "Failed to fetch events" :=
  ⟨⟨"Unexpected token in JSON", rfl⟩, rfl, rfl⟩

/-- C2 (amended): an absent sidecar column indeed behaves as an empty sidecar
— `JSON.parse(recipe.recipe_data || "\x7b\x7d")` succeeds and reconstruction
returns the column-derived values without raising; but when the sidecar is
present and not syntactically valid JSON, the parse error propagates out of
the reducer to the route's catch handler, and `GET /events` produces a 500
"Failed to fetch events" error response (no recipe defaults). -/
theorem c2_amended_absent_ok_malformed_500 :
    (∀ r : RecipeRow, r.recipe_data = none →
      reconstructListed r = .ok (listedRecipeView r (.obj [])) ∧
      getKey (listedRecipeView r (.obj [])) "strCategory" =
        jsOr (colVal r.category) (.str "Unknown") ∧
      getKey (listedRecipeView r (.obj [])) "strInstructions" =
        jsOr (colVal r.instructions) (.str "")) ∧
    (∀ (events : List EventRow) (recipes : List RecipeRow) (nodeEnv : String)
        (r : RecipeRow) (e : String), r ∈ recipes →
      jsonParse (sidecarText r.recipe_data) = .error e →
      (getEventsHandler events recipes nodeEnv).status = 500 ∧
      (getEventsHandler events recipes nodeEnv).body.get "error" =
        .str "Failed to fetch events") := by
  constructor
  · intro r h
    refine ⟨by rw [reconstructListed, h]; rfl, ?_, ?_⟩
    · rw [listedRecipeView_strCategory]
      exact congrArg (fun x => jsOr x (jsOr (colVal r.category) (.str "Unknown"))) rfl
    · rw [listedRecipeView_strInstructions]
      rfl
  · intro events recipes nodeEnv r e hr hparse
    have herr : reconstructListed r = .error e := by
      rw [reconstructListed, hparse]
    obtain ⟨e', he'⟩ := reduceRecipes_error_of_mem recipes r e hr herr
    constructor
    · rw [getEventsHandler, he']
    · rw [getEventsHandler, he']
      rfl

/-- A stored row with no sidecar at all. -/
def c2AbsentRow : RecipeRow where
  id := 9
  event_id := 10
  user_id := "user-1"
  meal_id := "52977"
  title := "Corba"
  image := ""
  ingredients := ""
  instructions := none
  custom := false
  category := some "Side"
  area := none
  tags := none
  youtube_url := none
  source_url := none
  recipe_data := none

/-- Witness: the amended C2 at concrete inputs — the absent sidecar row
reconstructs (to its column category "Side"), and one malformed row makes the
whole listing answer 500. -/
theorem c2_amended_absent_ok_malformed_500_witness :
    (reconstructListed c2AbsentRow = .ok (listedRecipeView c2AbsentRow (.obj [])) ∧
      getKey (listedRecipeView c2AbsentRow (.obj [])) "strCategory" = .str "Side") ∧
    (getEventsHandler [c2Event] [c2AbsentRow, c2BadRow] "production").status = 500 := by
  constructor
  · obtain ⟨h1, h2, _⟩ := c2_amended_absent_ok_malformed_500.1 c2AbsentRow rfl
    exact ⟨h1, h2.trans rfl⟩
  · exact (c2_amended_absent_ok_malformed_500.2 [c2Event] [c2AbsentRow, c2BadRow] "production"
      c2BadRow "Unexpected token in JSON" (by simp) rfl).1

/-! ### Claim C5 : the shadowing getEventWithRecipes shapes the POST response -/

theorem getEventWithRecipes_ok (db : DB) (eventId : Int) (userId : String)
    (e : EventRow) (rest : List EventRow)
    (hfil : db.events.filter (fun e => e.id == eventId && e.user_id == userId) = e :: rest) :
    getEventWithRecipes db eventId userId = .ok (.obj (buildObj
      [("id", .num e.id), ("title", .str e.name), ("name", .str e.name), ("date", .str e.date),
       ("description", jsOr (colVal e.description) (.str "")),
       ("location", jsOr (colVal e.location) (.str "")),
       ("image_url", jsOr (colVal e.image_url) (.str "")),
       ("recipes", .arr ((sortByIdDesc (db.recipes.filter
           (fun r => r.event_id == eventId && r.user_id == userId))).map
           (fun r => JsValue.obj (v2RecipeView (projectV2 r))))),
       ("created_at", .str e.created_at)])) := by
  rw [getEventWithRecipes, hfil]

theorem postEventRecipe_success (db : DB) (userId : String) (eventId : Int)
    (payload : JsValue) (newId : Int) (ing : String) (body : JsValue)
    (hvalid : (payload.truthy && (payload.get "idMeal").truthy &&
      (payload.get "strMeal").truthy) = true)
    (howner : (db.events.filter (fun e => e.id == eventId && e.user_id == userId)).isEmpty
      = false)
    (hdup : (db.recipes.filter (fun r =>
      r.event_id == eventId && r.meal_id == paramString (payload.get "idMeal"))).isEmpty
      = true)
    (hing : extractIngredients payload = .ok ing)
    (hbody : getEventWithRecipes
        ⟨db.events, db.recipes ++ [rowOfPayload eventId userId newId payload ing]⟩
        eventId userId = .ok body) :
    postEventRecipe db userId eventId payload newId =
      (⟨db.events, db.recipes ++ [rowOfPayload eventId userId newId payload ing]⟩,
       ⟨200, body⟩) := by
  rw [postEventRecipe]
  simp only [hvalid, howner, hdup, hing, hbody, Bool.not_true, Bool.not_false, Bool.false_eq_true,
    if_false, if_true]

theorem postEventRecipe_conflict (db : DB) (userId : String) (eventId : Int)
    (payload : JsValue) (newId : Int)
    (hvalid : (payload.truthy && (payload.get "idMeal").truthy &&
      (payload.get "strMeal").truthy) = true)
    (howner : (db.events.filter (fun e => e.id == eventId && e.user_id == userId)).isEmpty
      = false)
    (hdup : (db.recipes.filter (fun r =>
      r.event_id == eventId && r.meal_id == paramString (payload.get "idMeal"))).isEmpty
      = false) :
    postEventRecipe db userId eventId payload newId =
      (db, ⟨409, .obj (buildObj [("error", .str "Recipe already added to this event")])⟩) := by
  rw [postEventRecipe]
  simp only [hvalid, howner, hdup, Bool.not_true, Bool.not_false, Bool.false_eq_true,
    if_false, if_true]

theorem postEventRecipe_notfound (db : DB) (userId : String) (eventId : Int)
    (payload : JsValue) (newId : Int)
    (hvalid : (payload.truthy && (payload.get "idMeal").truthy &&
      (payload.get "strMeal").truthy) = true)
    (howner : (db.events.filter (fun e => e.id == eventId && e.user_id == userId)).isEmpty
      = true) :
    postEventRecipe db userId eventId payload newId =
      (db, ⟨404, .obj (buildObj [("error", .str "Event not found or access denied")])⟩) := by
  rw [postEventRecipe]
  simp only [hvalid, howner, Bool.not_true, Bool.not_false, Bool.false_eq_true,
    if_false, if_true]

theorem filter_and_nil_of_filter_nil {α} (l : List α) (p q : α → Bool)
    (h : l.filter p = []) : l.filter (fun x => p x && q x) = [] := by
  rw [List.filter_eq_nil_iff] at *
  intro a ha
  simp [h a ha]

/-- The number of recipe rows attached to an event. -/
def eventRecipeCount (db : DB) (eventId : Int) : Nat :=
  (db.recipes.filter (fun r => r.event_id == eventId)).length

theorem event_filter_and_nil (l : List RecipeRow) (eventId : Int) (q : RecipeRow → Bool)
    (h : l.filter (fun r => r.event_id == eventId) = []) :
    l.filter (fun r => r.event_id == eventId && q r) = [] := by
  rw [List.filter_eq_nil_iff] at *
  intro a ha
  simp [h a ha]

set_option maxHeartbeats 2000000 in
/-- C6 (confirmed): starting from an event the caller owns with no attached
recipes, attaching the same external recipe twice in sequence gives: a 200
first response containing the event with exactly that one recipe; a second
response of 409 "Recipe already added to this event" (distinct from the
generic 500 failure), with no write performed — the stored state and the
event's recipe count (1) are unchanged by the second call. -/
theorem c6_duplicate_attach_conflict (db : DB) (userId : String) (eventId : Int)
    (payload : JsValue) (id1 id2 : Int) (ing : String)
    (hvalid : (payload.truthy && (payload.get "idMeal").truthy &&
      (payload.get "strMeal").truthy) = true)
    (howner : (db.events.filter (fun e => e.id == eventId && e.user_id == userId)).isEmpty
      = false)
    (hclean : db.recipes.filter (fun r => r.event_id == eventId) = [])
    (hing : extractIngredients payload = .ok ing) :
    (postEventRecipe db userId eventId payload id1).2.status = 200 ∧
    (∃ vs, (postEventRecipe db userId eventId payload id1).2.body.get "recipes" = .arr vs ∧
      vs.length = 1) ∧
    eventRecipeCount (postEventRecipe db userId eventId payload id1).1 eventId = 1 ∧
    (postEventRecipe (postEventRecipe db userId eventId payload id1).1
      userId eventId payload id2).2.status = 409 ∧
    (postEventRecipe (postEventRecipe db userId eventId payload id1).1
      userId eventId payload id2).2.body.get "error" =
      .str "Recipe already added to this event" ∧
    (postEventRecipe (postEventRecipe db userId eventId payload id1).1
      userId eventId payload id2).1 = (postEventRecipe db userId eventId payload id1).1 ∧
    eventRecipeCount (postEventRecipe (postEventRecipe db userId eventId payload id1).1
      userId eventId payload id2).1 eventId = 1 := by
  cases hfil : db.events.filter (fun e => e.id == eventId && e.user_id == userId) with
  | nil =>
    rw [hfil] at howner
    simp at howner
  | cons e rest =>
    have hdup1 : (db.recipes.filter (fun r =>
        r.event_id == eventId && r.meal_id == paramString (payload.get "idMeal"))).isEmpty
        = true := by
      rw [event_filter_and_nil db.recipes eventId _ hclean]
      rfl
    have hbody := getEventWithRecipes_ok
      ⟨db.events, db.recipes ++ [rowOfPayload eventId userId id1 payload ing]⟩
      eventId userId e rest hfil
    have hpost1 := postEventRecipe_success db userId eventId payload id1 ing _
      hvalid howner hdup1 hing hbody
    have hfilter1 : (db.recipes ++ [rowOfPayload eventId userId id1 payload ing]).filter
        (fun r => r.event_id == eventId && r.user_id == userId) =
        [rowOfPayload eventId userId id1 payload ing] := by
      rw [List.filter_append, event_filter_and_nil db.recipes eventId _ hclean]
      simp [rowOfPayload, List.filter]
    have hfilter2 : (db.recipes ++ [rowOfPayload eventId userId id1 payload ing]).filter
        (fun r => r.event_id == eventId) =
        [rowOfPayload eventId userId id1 payload ing] := by
      rw [List.filter_append, hclean]
      simp [rowOfPayload, List.filter]
    have hdup2 : ((db.recipes ++ [rowOfPayload eventId userId id1 payload ing]).filter
        (fun r => r.event_id == eventId &&
          r.meal_id == paramString (payload.get "idMeal"))).isEmpty = false := by
      rw [List.filter_append, event_filter_and_nil db.recipes eventId _ hclean]
      simp [rowOfPayload, List.filter]
    have hpost2 := postEventRecipe_conflict
      ⟨db.events, db.recipes ++ [rowOfPayload eventId userId id1 payload ing]⟩
      userId eventId payload id2 hvalid howner hdup2
    rw [hpost1]
    dsimp only
    refine ⟨rfl,
      ⟨[.obj (v2RecipeView (projectV2 (rowOfPayload eventId userId id1 payload ing)))],
        ?_, rfl⟩, ?_, ?_, ?_, ?_, ?_⟩
    · rw [hfilter1]
      rfl
    · rw [eventRecipeCount]
      dsimp only
      rw [hfilter2]
      rfl
    · rw [hpost2]
    · rw [hpost2]
      rfl
    · rw [hpost2]
    · rw [hpost2, eventRecipeCount]
      dsimp only
      rw [hfilter2]
      rfl

/-- The event table and payload for the duplicate-attach witness. -/
def c6Db : DB where
  events := [⟨10, "user-1", "Dinner party", "2025-08-30", none, none, none, "2025-08-01"⟩]
  recipes := []

/-- The external recipe payload with id "52977" attached twice to event 10. -/
def c6Payload : JsValue :=
  .obj [("idMeal", .str "52977"), ("strMeal", .str "Corba"),
        ("strIngredient1", .str "Lentils"), ("strMeasure1", .str "1 cup")]

/-- Witness: C6 at the spec's concrete scenario (recipe id "52977", event 10,
two sequential calls). -/
theorem c6_duplicate_attach_conflict_witness :
    (postEventRecipe c6Db "user-1" 10 c6Payload 1).2.status = 200 ∧
    (postEventRecipe (postEventRecipe c6Db "user-1" 10 c6Payload 1).1
      "user-1" 10 c6Payload 2).2.status = 409 ∧
    eventRecipeCount (postEventRecipe (postEventRecipe c6Db "user-1" 10 c6Payload 1).1
      "user-1" 10 c6Payload 2).1 10 = 1 := by
  have h := c6_duplicate_attach_conflict c6Db "user-1" 10 c6Payload 1 2 "1 cup Lentils"
    (by rfl) (by rfl) (by rfl) (by rfl)
  exact ⟨h.1, h.2.2.2.1, h.2.2.2.2.2.2⟩

/-- A nullish JS value: property access on it throws a TypeError. -/
def jsNullish : JsValue → Bool
  | .undefined => true
  | .null => true
  | _ => false

/-- A stored row of the part_002 iteration's `recipes` table: its INSERT
supplies only event_id, meal_id, title and image (part_002 lines 189-192). -/
structure RecipeRowP2 where
  id : Int
  event_id : Int
  meal_id : String
  title : String
  image : String

/-- The storage state of the part_002 iteration. -/
structure DbP2 where
  events : List EventRow
  recipes : List RecipeRowP2

/-- The `POST /events/:id/recipes` handler of the part_002 iteration (lines
172-242).  It performs NO ownership check: after the duplicate check it
INSERTs the recipe row, then re-reads the event joined with its recipes but
filtered by `e.user_id = $2`; when the event belongs to another user the
re-read returns no rows, `updatedEvent.id` throws a TypeError, and the catch
answers 500 "Internal Server Error" — with the INSERT already persisted.
Reading `recipe.idMeal` on a nullish body also throws into the catch. -/
def postEventRecipePart2 (db : DbP2) (userId : String) (eventId : Int)
    (payload : JsValue) (newId : Int) : DbP2 × HttpResponse :=
  if jsNullish payload then
    (db, ⟨500, .obj (buildObj [("error", .str "Internal Server Error")])⟩)
  else if !(db.recipes.filter (fun r => r.event_id == eventId &&
      r.meal_id == paramString (payload.get "idMeal"))).isEmpty then
    (db, ⟨409, .obj (buildObj [("error", .str "Recipe already added to this event")])⟩)
  else
    let db1 : DbP2 := ⟨db.events,
      db.recipes ++ [⟨newId, eventId, paramString (payload.get "idMeal"),
        paramString (payload.get "strMeal"), paramString (payload.get "strMealThumb")⟩]⟩
    match db1.events.filter (fun e => e.id == eventId && e.user_id == userId) with
    | [] => (db1, ⟨500, .obj (buildObj [("error", .str "Internal Server Error")])⟩)
    | e :: _ =>
      let recipes := (db1.recipes.filter (fun r => r.event_id == eventId)).map (fun r =>
        JsValue.obj (buildObj
          [("id", .num r.id), ("idMeal", .str r.meal_id), ("strMeal", .str r.title),
           ("strMealThumb", .str r.image), ("strCategory", .str "Unknown"),
           ("strArea", .str "Unknown")]))
      (db1, ⟨200, .obj (buildObj
        [("id", .num e.id), ("title", .str e.name), ("name", .str e.name),
         ("date", .str e.date), ("image_url", colVal e.image_url),
         ("recipes", .arr recipes), ("created_at", .str e.date)])⟩)

/-- A store whose only event (id 10) belongs to another user. -/
def c7Db : DB where
  events := [⟨10, "user-2", "Someone else's party", "2025-08-30", none, none, none, "2025-08-01"⟩]
  recipes := []

/-- The same foreign-owned store in the part_002 iteration's schema. -/
def c7DbP2 : DbP2 where
  events := [⟨10, "user-2", "Someone else's party", "2025-08-30", none, none, none, "2025-08-01"⟩]
  recipes := []

/-- The external recipe payload for the C7 scenarios. -/
def c7Payload : JsValue :=
  .obj [("idMeal", .str "52977"), ("strMeal", .str "Corba"),
        ("strMealThumb", .str "corba.jpg")]

/-- C7 fails as stated for the cited part_002 handler: attaching a recipe to
event 10, which belongs to another user, INSERTs the recipe row (the store
grows from 0 to 1 rows — a write is performed) and is answered 500
"Internal Server Error" from the catch handler, not a not-found error. -/
theorem c7_part2_foreign_event_writes_and_500s :
    (postEventRecipePart2 c7DbP2 "user-1" 10 c7Payload 1).2.status = 500 ∧
    (postEventRecipePart2 c7DbP2 "user-1" 10 c7Payload 1).2.body.get "error" =
      .str "Internal Server Error" ∧
    (postEventRecipePart2 c7DbP2 "user-1" 10 c7Payload 1).1.recipes.length = 1 ∧
    c7DbP2.recipes.length = 0 ∧ (500 : Nat) ≠ 404 :=
  ⟨rfl, rfl, rfl, rfl, by decide⟩

/-- C7 (amended): in the final server.js iteration, an add-recipe request
that passes payload validation and targets an absent or foreign-owned event
is answered 404 "Event not found or access denied" — the same response in
both cases, revealing nothing about other users' events — and no write is
performed; but in the part_002 iteration the handler has no ownership check:
for a foreign-owned (or absent) event it inserts the recipe row — a write —
and then answers 500 "Internal Server Error" when the ownership-filtered
re-read comes back empty. -/
theorem c7_amended_ownership_check_divergence :
    (∀ (db : DB) (userId : String) (eventId : Int) (payload : JsValue) (newId : Int),
      (payload.truthy && (payload.get "idMeal").truthy &&
        (payload.get "strMeal").truthy) = true →
      (db.events.filter (fun e => e.id == eventId && e.user_id == userId)).isEmpty = true →
      (postEventRecipe db userId eventId payload newId).1 = db ∧
      (postEventRecipe db userId eventId payload newId).2.status = 404 ∧
      (postEventRecipe db userId eventId payload newId).2.body.get "error" =
        .str "Event not found or access denied") ∧
    (∀ (db : DbP2) (userId : String) (eventId : Int) (payload : JsValue) (newId : Int),
      jsNullish payload = false →
      db.recipes.filter (fun r => r.event_id == eventId &&
        r.meal_id == paramString (payload.get "idMeal")) = [] →
      db.events.filter (fun e => e.id == eventId && e.user_id == userId) = [] →
      (postEventRecipePart2 db userId eventId payload newId).1.recipes =
        db.recipes ++ [⟨newId, eventId, paramString (payload.get "idMeal"),
          paramString (payload.get "strMeal"), paramString (payload.get "strMealThumb")⟩] ∧
      (postEventRecipePart2 db userId eventId payload newId).2.status = 500 ∧
      (postEventRecipePart2 db userId eventId payload newId).2.body.get "error" =
        .str "Internal Server Error" ∧ (500 : Nat) ≠ 404) := by
  constructor
  · intro db userId eventId payload newId hvalid habs
    have h := postEventRecipe_notfound db userId eventId payload newId hvalid habs
    exact ⟨by rw [h], by rw [h], by rw [h]; rfl⟩
  · intro db userId eventId payload newId hpay hdup habs
    have hpost : postEventRecipePart2 db userId eventId payload newId =
        (⟨db.events, db.recipes ++ [⟨newId, eventId, paramString (payload.get "idMeal"),
            paramString (payload.get "strMeal"), paramString (payload.get "strMealThumb")⟩]⟩,
         ⟨500, .obj (buildObj [("error", .str "Internal Server Error")])⟩) := by
      rw [postEventRecipePart2]
      simp only [hpay, hdup, List.isEmpty_nil, Bool.not_true, Bool.false_eq_true, if_false]
      rw [habs]
    rw [hpost]
    exact ⟨rfl, rfl, rfl, by decide⟩

/-- Witness: the amended C7 at a concrete foreign-owned event in both
iterations — server.js answers 404 with no write; part_002 inserts the row
and answers 500. -/
theorem c7_amended_ownership_check_divergence_witness :
    ((postEventRecipe c7Db "user-1" 10 c7Payload 1).1 = c7Db ∧
     (postEventRecipe c7Db "user-1" 10 c7Payload 1).2.status = 404) ∧
    ((postEventRecipePart2 c7DbP2 "user-1" 10 c7Payload 1).2.status = 500 ∧
     (postEventRecipePart2 c7DbP2 "user-1" 10 c7Payload 1).1.recipes.length = 1) := by
  have h1 := c7_amended_ownership_check_divergence.1 c7Db "user-1" 10 c7Payload 1
    (by rfl) (by rfl)
  have h2 := c7_amended_ownership_check_divergence.2 c7DbP2 "user-1" 10 c7Payload 1
    (by rfl) (by rfl) (by rfl)
  exact ⟨⟨h1.1, h1.2.1⟩, h2.2.1, by rw [h2.1]; rfl⟩

/-! ### Claim C8 : construction-time ingredients derivation -/

theorem trimLeading_cons_space (c : Char) (cs : List Char) (h : isJsSpace c = true) :
    trimLeading (c :: cs) = trimLeading cs := by
  simp [trimLeading, h]

theorem trimLeading_cons_nospace (c : Char) (cs : List Char) (h : isJsSpace c = false) :
    trimLeading (c :: cs) = c :: cs := by
  simp [trimLeading, h]

theorem trimLeading_head_nospace (l : List Char) (c : Char) (cs : List Char)
    (h : trimLeading l = c :: cs) : isJsSpace c = false := by
  induction l with
  | nil => simp [trimLeading] at h
  | cons a as ih =>
    by_cases ha : isJsSpace a = true
    · exact ih (by rwa [trimLeading_cons_space a as ha] at h)
    · have ha' : isJsSpace a = false := by simpa using ha
      rw [trimLeading_cons_nospace a as ha'] at h
      injection h with h1 h2
      rwa [← h1]

theorem trimLeading_idem (l : List Char) : trimLeading (trimLeading l) = trimLeading l := by
  induction l with
  | nil => rfl
  | cons a as ih =>
    by_cases ha : isJsSpace a = true
    · rw [trimLeading_cons_space a as ha]
      exact ih
    · have ha' : isJsSpace a = false := by simpa using ha
      rw [trimLeading_cons_nospace a as ha', trimLeading_cons_nospace a as ha']

theorem trimLeading_length_le (l : List Char) : (trimLeading l).length ≤ l.length := by
  induction l with
  | nil => simp [trimLeading]
  | cons a as ih =>
    by_cases ha : isJsSpace a = true
    · rw [trimLeading_cons_space a as ha]
      exact le_trans ih (by simp)
    · rw [trimLeading_cons_nospace a as (by simpa using ha)]

theorem head_nospace_of_fix (c : Char) (cs : List Char)
    (h : trimLeading (c :: cs) = c :: cs) : isJsSpace c = false := by
  by_contra hc
  have hc' : isJsSpace c = true := by simpa using hc
  rw [trimLeading_cons_space c cs hc'] at h
  have hlen := trimLeading_length_le cs
  rw [h] at hlen
  simp at hlen

theorem trimLeading_suffix (l : List Char) : ∃ k, l = k ++ trimLeading l := by
  induction l with
  | nil => exact ⟨[], rfl⟩
  | cons a as ih =>
    by_cases ha : isJsSpace a = true
    · obtain ⟨k, hk⟩ := ih
      refine ⟨a :: k, ?_⟩
      rw [trimLeading_cons_space a as ha, List.cons_append, ← hk]
    · exact ⟨[], by rw [trimLeading_cons_nospace a as (by simpa using ha)]; rfl⟩

/-- The character-level core of `jsTrim`. -/
def trimChars (l : List Char) : List Char :=
  (trimLeading (trimLeading l).reverse).reverse

theorem jsTrim_data (s : String) : (jsTrim s).data = trimChars s.data := rfl

theorem trimChars_rev_nolead (l : List Char) :
    trimLeading (trimChars l).reverse = (trimChars l).reverse := by
  rw [trimChars, List.reverse_reverse, trimLeading_idem]

theorem trimChars_nolead (l : List Char) :
    trimLeading (trimChars l) = trimChars l := by
  cases hB : trimChars l with
  | nil => rfl
  | cons c cs =>
    obtain ⟨k, hk⟩ := trimLeading_suffix (trimLeading l).reverse
    have hA : trimLeading l = trimChars l ++ k.reverse := by
      have h2 := congrArg List.reverse hk
      rw [List.reverse_reverse, List.reverse_append] at h2
      exact h2
    rw [hB, List.cons_append] at hA
    have hc : isJsSpace c = false := trimLeading_head_nospace l c (cs ++ k.reverse) hA
    exact trimLeading_cons_nospace c cs hc

theorem trimChars_append (x y : List Char)
    (hx1 : trimLeading x = x) (hx2 : trimLeading x.reverse = x.reverse)
    (hy2 : trimLeading y.reverse = y.reverse)
    (hxne : x ≠ []) (hyne : y ≠ []) :
    trimChars (x ++ ' ' :: y) = x ++ ' ' :: y := by
  have h1 : trimLeading (x ++ ' ' :: y) = x ++ ' ' :: y := by
    cases x with
    | nil => exact absurd rfl hxne
    | cons c cs =>
      have hc : isJsSpace c = false := head_nospace_of_fix c cs hx1
      rw [List.cons_append]
      exact trimLeading_cons_nospace c (cs ++ ' ' :: y) hc
  have hrev : (x ++ ' ' :: y).reverse = y.reverse ++ ' ' :: x.reverse := by
    rw [List.reverse_append, List.reverse_cons, List.append_assoc]
    rfl
  have h2 : trimLeading (x ++ ' ' :: y).reverse = (x ++ ' ' :: y).reverse := by
    rw [hrev]
    cases hyr : y.reverse with
    | nil => exact absurd (by simpa using congrArg List.reverse hyr) hyne
    | cons d ds =>
      have hd : isJsSpace d = false := head_nospace_of_fix d ds (hyr ▸ hy2)
      rw [List.cons_append]
      exact trimLeading_cons_nospace d (ds ++ ' ' :: x.reverse) hd
  rw [trimChars, h1, h2, List.reverse_reverse]

theorem str_data_append (a b : String) : (a ++ b).data = a.data ++ b.data := by
  cases a
  cases b
  rfl

theorem str_mk_data (s : String) : String.mk s.data = s := by
  cases s
  rfl

theorem str_ne_empty_data (s : String) (h : s ≠ "") : s.data ≠ [] := by
  intro hd
  refine h ?_
  cases s
  simp at hd
  rw [hd]

/-- Gluing two already-trimmed nonempty strings with a single space is a
fixpoint of `jsTrim`: the outer `.trim()` of the pushed template literal is
the identity on "measure ingredient" entries. -/
theorem jsTrim_glue (a b : String) (hx : jsTrim a ≠ "") (hy : jsTrim b ≠ "") :
    jsTrim (jsTrim a ++ " " ++ jsTrim b) = jsTrim a ++ " " ++ jsTrim b := by
  have hdata : (jsTrim a ++ " " ++ jsTrim b).data =
      (jsTrim a).data ++ ' ' :: (jsTrim b).data := by
    rw [str_data_append, str_data_append, List.append_assoc]
    rfl
  have hch : trimChars ((jsTrim a).data ++ ' ' :: (jsTrim b).data) =
      (jsTrim a).data ++ ' ' :: (jsTrim b).data := by
    refine trimChars_append _ _ ?_ ?_ ?_ ?_ ?_
    · rw [jsTrim_data]
      exact trimChars_nolead a.data
    · rw [jsTrim_data]
      exact trimChars_rev_nolead a.data
    · rw [jsTrim_data]
      exact trimChars_rev_nolead b.data
    · exact str_ne_empty_data _ hx
    · exact str_ne_empty_data _ hy
  calc jsTrim (jsTrim a ++ " " ++ jsTrim b)
      = String.mk (trimChars (jsTrim a ++ " " ++ jsTrim b).data) := rfl
    _ = String.mk (trimChars ((jsTrim a).data ++ ' ' :: (jsTrim b).data)) := by rw [hdata]
    _ = String.mk ((jsTrim a).data ++ ' ' :: (jsTrim b).data) := by rw [hch]
    _ = String.mk (jsTrim a ++ " " ++ jsTrim b).data := by rw [hdata]
    _ = jsTrim a ++ " " ++ jsTrim b := str_mk_data _

/-- The spec's example payload: `strIngredient1 = "Flour"`,
`strMeasure1 = "200g"`, `strIngredient2 = ""`. -/
def c8Payload : JsValue :=
  .obj [("idMeal", .str "10001"), ("strMeal", .str "Bread"),
        ("strIngredient1", .str "Flour"), ("strMeasure1", .str "200g"),
        ("strIngredient2", .str "")]

/-- The ingredient-string derivation as the specification words it: scan
exactly slots 1 through 20, trim whitespace, skip every slot whose
ingredient name is empty after trimming, build "measure ingredient" per kept
slot, and join the kept entries with ", " (no trailing separator). -/
def specIngredientsText (p : JsValue) : String :=
  String.intercalate ", " ((List.range' 1 20).filterMap (fun i =>
    match p.get ("strIngredient" ++ toString i), p.get ("strMeasure" ++ toString i) with
    | .str ing, .str m => if jsTrim ing = "" then none else some (jsTrim m ++ " " ++ jsTrim ing)
    | _, _ => none))

/-- A well-formed payload slot: the ingredient is absent, null, or a string;
and when the slot is kept (ingredient nonempty after trimming) the measure is
a string that is nonempty after trimming — the shape TheMealDB payloads
have. -/
def slotOk (p : JsValue) (i : Nat) : Prop :=
  p.get ("strIngredient" ++ toString i) = .undefined ∨
  p.get ("strIngredient" ++ toString i) = .null ∨
  (∃ s, p.get ("strIngredient" ++ toString i) = .str s ∧ jsTrim s = "") ∨
  (∃ s m, p.get ("strIngredient" ++ toString i) = .str s ∧ jsTrim s ≠ "" ∧
    p.get ("strMeasure" ++ toString i) = .str m ∧ jsTrim m ≠ "")

theorem ingredientSlot_skip (p : JsValue) (i : Nat)
    (h : p.get ("strIngredient" ++ toString i) = .undefined ∨
      p.get ("strIngredient" ++ toString i) = .null ∨
      (∃ s, p.get ("strIngredient" ++ toString i) = .str s ∧ jsTrim s = "")) :
    ingredientSlot p i = .ok none := by
  rcases h with h1 | h1 | ⟨s, h1, h2⟩
  · simp [ingredientSlot, h1, JsValue.truthy]
  · simp [ingredientSlot, h1, JsValue.truthy]
  · by_cases hse : s = ""
    · subst hse
      simp [ingredientSlot, h1, JsValue.truthy]
    · simp [ingredientSlot, h1, JsValue.truthy, hse, jsTrimCall, h2]

theorem ingredientSlot_keep (p : JsValue) (i : Nat) (s m : String)
    (h1 : p.get ("strIngredient" ++ toString i) = .str s) (h2 : jsTrim s ≠ "")
    (h3 : p.get ("strMeasure" ++ toString i) = .str m) :
    ingredientSlot p i = .ok (some (jsTrim (jsTrim m ++ " " ++ jsTrim s))) := by
  have hse : s ≠ "" := fun he => h2 (by rw [he]; rfl)
  simp [ingredientSlot, h1, h3, JsValue.truthy, hse, jsTrimCall, jsTrimChain, h2]

theorem extractLoop_spec (p : JsValue) (idxs : List Nat)
    (h : ∀ i ∈ idxs, slotOk p i) :
    extractLoop p idxs = .ok (idxs.filterMap (fun i =>
      match p.get ("strIngredient" ++ toString i), p.get ("strMeasure" ++ toString i) with
      | .str ing, .str m =>
        if jsTrim ing = "" then none else some (jsTrim m ++ " " ++ jsTrim ing)
      | _, _ => none)) := by
  induction idxs with
  | nil => rfl
  | cons i rest ih =>
    have hrest := ih (fun j hj => h j (by simp [hj]))
    rcases h i (by simp) with h1 | h1 | ⟨s, h1, h2⟩ | ⟨s, m, h1, h2, h3, h4⟩
    · rw [extractLoop, ingredientSlot_skip p i (Or.inl h1), hrest]
      simp [h1]
    · rw [extractLoop, ingredientSlot_skip p i (Or.inr (Or.inl h1)), hrest]
      simp [h1]
    · rw [extractLoop, ingredientSlot_skip p i (Or.inr (Or.inr ⟨s, h1, h2⟩)), hrest]
      cases hm : p.get ("strMeasure" ++ toString i) <;> simp [h1, h2, hm]
    · rw [extractLoop, ingredientSlot_keep p i s m h1 h2 h3, hrest, jsTrim_glue m s h4 h2]
      simp [h1, h3, h2]

set_option maxHeartbeats 1000000 in
/-- C8 (confirmed): on well-formed imported payloads (string-or-absent
slots, with a nonempty measure on every kept slot), the handler's
construction-time derivation scans exactly ingredient slots 1..20, trims
whitespace, skips slots whose ingredient is empty after trimming, builds
"measure ingredient" per kept slot and joins with ", " — it equals the
specification-worded derivation; and the spec's concrete example
(strIngredient1 = "Flour", strMeasure1 = "200g", strIngredient2 = "")
persists exactly "200g Flour". -/
theorem c8_ingredients_derivation :
    (∀ p : JsValue, (∀ i ∈ List.range' 1 20, slotOk p i) →
      extractIngredients p = .ok (specIngredientsText p)) ∧
    extractIngredients c8Payload = .ok "200g Flour" ∧
    specIngredientsText c8Payload = "200g Flour" := by
  refine ⟨?_, by rfl, by rfl⟩
  intro p h
  rw [extractIngredients, extractLoop_spec p (List.range' 1 20) h]
  rfl

set_option maxHeartbeats 1000000 in
/-- Witness: the refinement of C8 applied at the spec's example payload. -/
theorem c8_ingredients_derivation_witness :
    extractIngredients c8Payload = .ok (specIngredientsText c8Payload) := by
  refine c8_ingredients_derivation.1 c8Payload ?_
  intro i hi
  fin_cases hi
  · exact Or.inr (Or.inr (Or.inr ⟨"Flour", "200g", rfl, by decide, rfl, by decide⟩))
  · exact Or.inr (Or.inr (Or.inl ⟨"", rfl, rfl⟩))
  all_goals exact Or.inl rfl

/-! ### Claim C9 : deleting an event removes its recipes -/

/-- C9 (confirmed; the referential cascade is modelled from the spec since
the schema is not among the sources): deleting an event the caller owns
answers 200, and every recipe row that was attached to that event is gone —
a subsequent fetch by any of those recipe identifiers returns no rows
(recipe identifiers are storage-generated, hence unique). -/
theorem c9_delete_event_cascades (db : DB) (userId : String) (eventId : Int)
    (howner : (db.events.filter (fun e => e.id == eventId && e.user_id == userId)).isEmpty
      = false)
    (hnd : (db.recipes.map (fun r => r.id)).Nodup) :
    (deleteEventHandler db userId eventId).2.status = 200 ∧
    ∀ r ∈ db.recipes, r.event_id = eventId →
      fetchRecipesById (deleteEventHandler db userId eventId).1 r.id = [] := by
  constructor
  · rw [deleteEventHandler]
    simp only [howner, Bool.false_eq_true, if_false]
  · intro r hr hre
    have hdb' : (deleteEventHandler db userId eventId).1 =
        sqlDeleteEventCascade db eventId userId := by
      rw [deleteEventHandler]
      split <;> rfl
    rw [hdb', fetchRecipesById, List.filter_eq_nil_iff]
    intro x hx hxid
    simp only [sqlDeleteEventCascade] at hx
    obtain ⟨hxmem, hxpred⟩ := List.mem_filter.mp hx
    have hxr : x = r := by
      have hid : x.id = r.id := by simpa using hxid
      exact List.inj_on_of_nodup_map hnd hxmem hr hid
    subst hxr
    obtain ⟨e0, he0⟩ :
        ∃ e0, e0 ∈ db.events.filter (fun e => e.id == eventId && e.user_id == userId) := by
      cases hfe : db.events.filter (fun e => e.id == eventId && e.user_id == userId) with
      | nil =>
        rw [hfe] at howner
        simp at howner
      | cons a l => exact ⟨a, List.mem_cons_self a l⟩
    have he0id : e0.id = eventId := by
      have hp := (List.mem_filter.mp he0).2
      simp only [Bool.and_eq_true, beq_iff_eq] at hp
      exact hp.1
    have hany : (db.events.filter (fun e => e.id == eventId && e.user_id == userId)).any
        (fun e => e.id == x.event_id) = true := by
      rw [List.any_eq_true]
      exact ⟨e0, he0, by simp [he0id, hre]⟩
    rw [hany] at hxpred
    simp at hxpred

/-- An event with two attached recipe rows, plus an unrelated event/recipe. -/
def c9Row1 : RecipeRow :=
  ⟨100, 10, "user-1", "52977", "Corba", "", "", none, false, none, none, none, none, none, none⟩

def c9Row2 : RecipeRow :=
  ⟨101, 10, "user-1", "52771", "Penne", "", "", none, false, none, none, none, none, none, none⟩

def c9Row3 : RecipeRow :=
  ⟨102, 20, "user-1", "52893", "Crumble", "", "", none, false, none, none, none, none, none, none⟩

def c9Db : DB where
  events := [⟨10, "user-1", "Dinner party", "2025-08-30", none, none, none, "2025-08-01"⟩,
             ⟨20, "user-1", "Brunch", "2025-09-06", none, none, none, "2025-08-02"⟩]
  recipes := [c9Row1, c9Row2, c9Row3]

/-- Witness: C9 at a concrete store — after deleting event 10, fetching its
former recipe rows (ids 100 and 101) returns nothing. -/
theorem c9_delete_event_cascades_witness :
    (deleteEventHandler c9Db "user-1" 10).2.status = 200 ∧
    fetchRecipesById (deleteEventHandler c9Db "user-1" 10).1 100 = [] ∧
    fetchRecipesById (deleteEventHandler c9Db "user-1" 10).1 101 = [] := by
  have h := c9_delete_event_cascades c9Db "user-1" 10 (by rfl) (by decide)
  exact ⟨h.1, h.2 c9Row1 (by simp [c9Db]) rfl, h.2 c9Row2 (by simp [c9Db]) rfl⟩

/-! ### Claim C10 : diagnostic detail in storage-error responses -/

/-- C10 fails as stated: in a production build the part_001 add-recipe catch
handler still includes the storage error's message in the response (its
`details` field is unconditional), and the part_002 GET /events catch handler
returns the raw message as the response body — diagnostic detail reaches the
caller in production. -/
theorem c10_production_leaks_details :
    (catchAddRecipePart1 "production" "connect ECONNREFUSED 10.0.0.5:5432" "stacktrace").body.get
      "details" = .str "connect ECONNREFUSED 10.0.0.5:5432" ∧
    (catchGetEventsPart2 "connect ECONNREFUSED 10.0.0.5:5432").body.get "error" =
      .str "connect ECONNREFUSED 10.0.0.5:5432" ∧
    ("production" : String) ≠ "development" :=
  ⟨rfl, rfl, by decide⟩

/-- C10 (amended): the final server.js GET /events catch handler reports the
generic failure and includes the error message only in development builds
(any other NODE_ENV gets "Internal server error" as details); but the
part_001 add-recipe catch handler includes the error message
unconditionally, gating only the stack trace on development, and the
part_002 GET /events catch handler sends the raw error message in every
environment — so in those iterations diagnostic detail does reach the caller
in production. -/
theorem c10_amended_detail_gating :
    (∀ env msg : String, env ≠ "development" →
      (catchGetEventsFinal env msg).status = 500 ∧
      (catchGetEventsFinal env msg).body.get "error" = .str "Failed to fetch events" ∧
      (catchGetEventsFinal env msg).body.get "details" = .str "Internal server error") ∧
    (∀ msg : String, (catchGetEventsFinal "development" msg).body.get "details" = .str msg) ∧
    (∀ env msg stack : String,
      (catchAddRecipePart1 env msg stack).body.get "details" = .str msg) ∧
    (∀ msg stack : String,
      (catchAddRecipePart1 "production" msg stack).body.get "stack" = .undefined) ∧
    (∀ msg : String, (catchGetEventsPart2 msg).body.get "error" = .str msg) := by
  refine ⟨?_, fun msg => rfl, fun env msg stack => rfl, fun msg stack => rfl, fun msg => rfl⟩
  intro env msg henv
  have hb : (env == "development") = false := by simpa using henv
  refine ⟨rfl, rfl, ?_⟩
  show JsValue.str (if env == "development" then msg else "Internal server error") =
    .str "Internal server error"
  rw [hb]
  rfl

/-- Witness: the amended C10 at concrete environments and messages. -/
theorem c10_amended_detail_gating_witness :
    (catchGetEventsFinal "production" "boom").body.get "details" =
      .str "Internal server error" ∧
    (catchGetEventsFinal "development" "boom").body.get "details" = .str "boom" ∧
    (catchAddRecipePart1 "production" "boom" "st").body.get "details" = .str "boom" :=
  ⟨(c10_amended_detail_gating.1 "production" "boom" (by decide)).2.2,
   c10_amended_detail_gating.2.1 "boom",
   c10_amended_detail_gating.2.2.1 "production" "boom" "st"⟩
